import Mathlib

/-!
Verification of the positioning core of the tourist-safety-system repository.

The embedding covers:
* `config/settings.py` — the calibration constants `RSSI_AT_1M` and
  `ENV_FACTOR_N` actually configured in the repository.
* `src/utils/math_helper.py` — `MathEngine.rssi_to_distance` and
  `MathEngine.trilaterate`.
* `src/nodes/master.py`, `run_master` — the message-ingestion, positioning
  trigger, and timeout logic of the master node's main loop.

Python floating point is modelled by exact arithmetic (`ℚ` for values that
stay rational, `ℝ` where the code takes `10 ** x` with fractional `x`); the
one float artifact a claim depends on — `OverflowError` from `10 ** e` for
huge `e` — is modelled exactly by `rssiOverflow` below.  Python strings are
modelled as `List Char`.
-/

namespace TouristSafety

/-- Python strings are modelled as lists of characters. -/
abbrev Str := List Char

/-! ### Python string primitives used by `run_master` -/

/-- Whether `pat` is a (character-wise) prefix of `s`. -/
def isPrefixB : Str → Str → Bool
  | [], _ => true
  | _ :: _, [] => false
  | a :: s, b :: t => decide (a = b) && isPrefixB s t

/-- Python's `pat in hay` substring test. -/
def strContains (hay pat : Str) : Bool :=
  if isPrefixB pat hay then true
  else
    match hay with
    | [] => false
    | _ :: t => strContains t pat

/-- Python's `s.split(sep)` for a single-character separator: splits at every
occurrence of `sep`, keeping empty fields (`"".split(":") == [""]`). -/
def splitOnChar (sep : Char) : Str → List Str
  | [] => [[]]
  | c :: cs =>
    let r := splitOnChar sep cs
    if c = sep then [] :: r
    else
      match r with
      | [] => [[c]]
      | h :: t => (c :: h) :: t

/-- Whitespace recognised by Python's `str.strip()` (the ASCII cases). -/
def isPySpace (c : Char) : Bool := c = ' ' || c = '\t' || c = '\n' || c = '\r'

/-- Python's `s.strip()`. -/
def pyStrip (s : Str) : Str :=
  ((s.dropWhile isPySpace).reverse.dropWhile isPySpace).reverse

/-- Python's `s.upper()` (ASCII). -/
def pyUpper (s : Str) : Str := s.map Char.toUpper

/-- Value of a string of decimal digits. -/
def digitsToNat (s : Str) : Nat := s.foldl (fun a c => 10 * a + (c.toNat - 48)) 0

/-- Python's `int(s)` on a string: strips whitespace, accepts an optional
sign followed by decimal digits, raises `ValueError` (here: `none`)
otherwise. -/
def pyParseInt (s : Str) : Option Int :=
  match pyStrip s with
  | [] => none
  | c :: cs =>
    if c = '-' then
      if !cs.isEmpty && cs.all Char.isDigit then some (-(digitsToNat cs : Int)) else none
    else if c = '+' then
      if !cs.isEmpty && cs.all Char.isDigit then some ((digitsToNat cs : Int)) else none
    else if (c :: cs).all Char.isDigit then some ((digitsToNat (c :: cs) : Int)) else none

/-! ### `config/settings.py` -/

/-- Measured RSSI at one meter (`RSSI_AT_1M = -40` in `config/settings.py`). -/
def RSSI_AT_1M : Int := -40

/-- Path-loss exponent (`ENV_FACTOR_N = 4.0` in `config/settings.py`). -/
def ENV_FACTOR_N : ℚ := 4

/-! ### `MathEngine.rssi_to_distance` (`src/utils/math_helper.py`) -/

/-- The clamp `if rssi > -10: rssi = -10` at the top of `rssi_to_distance`. -/
def clampRssi (r : Int) : Int := if r > -10 then -10 else r

/-- `exponent = (RSSI_AT_1M - rssi) / (10 * ENV_FACTOR_N)` — exact value of
the Python float expression (all quantities involved are small integers, so
the float computes this exactly). -/
def distExponent (r : Int) : ℚ :=
  ((RSSI_AT_1M : ℚ) - (clampRssi r : ℚ)) / (10 * ENV_FACTOR_N)

/-- Generic `round(x, 2)`: Python rounds to 2 decimal places.  (CPython uses
round-half-to-even on the underlying binary float; the model rounds half up.
The two differ only on exact `.005` ties, which no claim exercises.) -/
def roundTo2 {K : Type} [LinearOrderedField K] [FloorRing K] (x : K) : K :=
  ((round (100 * x) : ℤ) : K) / 100

/-- Smallest real whose IEEE-754 double rounding is `+inf`: the midpoint
between the largest finite double `2^1024 - 2^971` and `2^1024`. -/
def floatOverflowNum : ℕ := Nat.pow 2 1024 - Nat.pow 2 970

/-- Whether CPython's `10 ** exponent` inside `rssi_to_distance` raises
`OverflowError` for input `r`.  The exponent is `a / 40` with integer
numerator `a = RSSI_AT_1M - clampRssi r`; the float power overflows exactly
when the true value reaches the round-to-infinity threshold, and for `a > 0`
`10 ^ (a/40) ≥ T  ↔  10 ^ a ≥ T ^ 40`, which is a decidable comparison of
natural numbers. -/
def rssiOverflow (r : Int) : Bool :=
  let a : Int := RSSI_AT_1M - clampRssi r
  decide (0 < a) && decide (Nat.pow floatOverflowNum 40 ≤ Nat.pow 10 a.toNat)

/-- `MathEngine.rssi_to_distance`: `distance = 10 ** exponent`, rounded to two
decimals.  This is the exact (ideal-arithmetic) value of the float pipeline;
the float-overflow failure mode is captured separately by `rssiOverflow`. -/
noncomputable def rssi_to_distance (r : Int) : ℝ :=
  roundTo2 ((10 : ℝ) ^ ((distExponent r : ℚ) : ℝ))

/-! ### `MathEngine.trilaterate` (`src/utils/math_helper.py`) -/

/-- The denominator `E*A - B*D` of the x-solution in `trilaterate`, as a
function of the three `(x, y, r)` input triples (it only involves the
coordinates). -/
def triDenom {K : Type} [LinearOrderedField K] (p1 p2 p3 : K × K × K) : K :=
  (-2 * p2.2.1 + 2 * p3.2.1) * (-2 * p1.1 + 2 * p2.1) -
    (-2 * p1.2.1 + 2 * p2.2.1) * (-2 * p2.1 + 2 * p3.1)

/-- `MathEngine.trilaterate`: returns `none` for fewer than three triples;
otherwise solves the linearised circle system by Cramer's rule on the first
three triples, catching `ZeroDivisionError` (raised iff `E*A - B*D` is
exactly zero, since the y-denominator is its negation) as `none`. -/
def trilaterate {K : Type} [LinearOrderedField K] [FloorRing K] [DecidableEq K] :
    List (K × K × K) → Option (K × K)
  | p1 :: p2 :: p3 :: _ =>
    let x1 := p1.1; let y1 := p1.2.1; let r1 := p1.2.2
    let x2 := p2.1; let y2 := p2.2.1; let r2 := p2.2.2
    let x3 := p3.1; let y3 := p3.2.1; let r3 := p3.2.2
    let A := -2 * x1 + 2 * x2
    let B := -2 * y1 + 2 * y2
    let C := r1 ^ 2 - r2 ^ 2 - x1 ^ 2 + x2 ^ 2 - y1 ^ 2 + y2 ^ 2
    let D := -2 * x2 + 2 * x3
    let E := -2 * y2 + 2 * y3
    let Fv := r2 ^ 2 - r3 ^ 2 - x2 ^ 2 + x3 ^ 2 - y2 ^ 2 + y3 ^ 2
    if E * A - B * D = 0 then none
    else
      some (roundTo2 ((C * E - Fv * B) / (E * A - B * D)),
            roundTo2 ((C * D - A * Fv) / (B * D - A * E)))
  | _ => none

/-- Unfolding equation for `trilaterate` on a list with at least three
elements, with the denominator abbreviated by `triDenom`. -/
theorem trilaterate_cons {K : Type} [LinearOrderedField K] [FloorRing K] [DecidableEq K]
    (p1 p2 p3 : K × K × K) (rest : List (K × K × K)) :
    trilaterate (p1 :: p2 :: p3 :: rest) =
      if triDenom p1 p2 p3 = 0 then none
      else
        some (roundTo2
                (((p1.2.2 ^ 2 - p2.2.2 ^ 2 - p1.1 ^ 2 + p2.1 ^ 2 - p1.2.1 ^ 2 + p2.2.1 ^ 2) *
                      (-2 * p2.2.1 + 2 * p3.2.1) -
                    (p2.2.2 ^ 2 - p3.2.2 ^ 2 - p2.1 ^ 2 + p3.1 ^ 2 - p2.2.1 ^ 2 + p3.2.1 ^ 2) *
                      (-2 * p1.2.1 + 2 * p2.2.1)) /
                  triDenom p1 p2 p3),
              roundTo2
                (((p1.2.2 ^ 2 - p2.2.2 ^ 2 - p1.1 ^ 2 + p2.1 ^ 2 - p1.2.1 ^ 2 + p2.2.1 ^ 2) *
                      (-2 * p2.1 + 2 * p3.1) -
                    (-2 * p1.1 + 2 * p2.1) *
                      (p2.2.2 ^ 2 - p3.2.2 ^ 2 - p2.1 ^ 2 + p3.1 ^ 2 - p2.2.1 ^ 2 + p3.2.1 ^ 2)) /
                  ((-2 * p1.2.1 + 2 * p2.2.1) * (-2 * p2.1 + 2 * p3.1) -
                    (-2 * p1.1 + 2 * p2.1) * (-2 * p2.2.1 + 2 * p3.2.1)))) := rfl

/-! ### The master node's state (`run_master` in `src/nodes/master.py`) -/

/-- Anchor id of the master node. -/
def masterKeyS : String := "MASTER"

/-- Anchor id of the second anchor. -/
def anchor2KeyS : String := "ANCHOR_2"

/-- Anchor id of the third anchor. -/
def anchor3KeyS : String := "ANCHOR_3"

/-- Anchor id of the master node, as a character list. -/
def masterKey : Str := masterKeyS.toList

/-- Anchor id of the second anchor, as a character list. -/
def anchor2Key : Str := anchor2KeyS.toList

/-- Anchor id of the third anchor, as a character list. -/
def anchor3Key : Str := anchor3KeyS.toList

/-- The keyword `"PING"`. -/
def pingKwS : String := "PING"

/-- The keyword `"SOS"`. -/
def sosKwS : String := "SOS"

/-- The keyword `"REPORT"`. -/
def reportKwS : String := "REPORT"

/-- The keyword `"PING"`, as a character list. -/
def pingKw : Str := pingKwS.toList

/-- The keyword `"SOS"`, as a character list. -/
def sosKw : Str := sosKwS.toList

/-- The keyword `"REPORT"`, as a character list. -/
def reportKw : Str := reportKwS.toList

/-- The required anchor list `["MASTER", "ANCHOR_2", "ANCHOR_3"]` that
`run_master` iterates over when building the trilateration input. -/
def anchorIds : List Str := [masterKey, anchor2Key, anchor3Key]

/-- The mutable state of `run_master`'s main loop: `current_readings` (a dict
from anchor id to latest rssi, modelled as an association list in insertion
order), `last_ping_time`, `current_device_id` and `is_sos`. -/
structure MasterState where
  readings : List (Str × Int)
  lastPing : ℚ
  deviceId : Option Str
  sos : Bool
  deriving DecidableEq

/-- Python dict assignment `d[k] = v`: replaces the value of an existing key
in place, otherwise appends the new key at the end. -/
def updateReading : List (Str × Int) → Str → Int → List (Str × Int)
  | [], k, v => [(k, v)]
  | p :: rest, k, v => if p.1 = k then (k, v) :: rest else p :: updateReading rest k v

/-- Python dict lookup `d.get(k)`: the value stored under `k`, if any. -/
def lookupReading : List (Str × Int) → Str → Option Int
  | [], _ => none
  | p :: rest, k => if p.1 = k then some p.2 else lookupReading rest k

/-- The dict invariant: the association list has pairwise-distinct keys. -/
abbrev NodupKeys (m : List (Str × Int)) : Prop := (m.map Prod.fst).Nodup

/-- Message ingestion, `run_master` lines 129-152.  A message containing
`"PING"` or `"SOS"` is a direct locate signal: the received rssi is recorded
under `"MASTER"`, `last_ping_time` is reset, the device id is captured from
the second `:`-field when present, and `is_sos` is set iff the message
contains `"SOS"`.  Otherwise a message containing `"REPORT"` is a relayed
report: fields two and three give the anchor id and rssi; an `IndexError`
(fewer than three fields) or `ValueError` (non-integer rssi) is swallowed by
the bare `except`, leaving the state unchanged.  Anything else is ignored. -/
def ingest (st : MasterState) (msg : Str) (rssi : Int) (now : ℚ) : MasterState :=
  if strContains msg pingKw || strContains msg sosKw then
    let st1 : MasterState :=
      { st with readings := updateReading st.readings masterKey rssi, lastPing := now }
    let st2 : MasterState :=
      match splitOnChar ':' msg with
      | _ :: p1 :: _ => { st1 with deviceId := some (pyUpper (pyStrip p1)) }
      | _ => st1
    { st2 with sos := strContains msg sosKw }
  else if strContains msg reportKw then
    match splitOnChar ':' msg with
    | _ :: p1 :: p2 :: _ =>
      match pyParseInt p2 with
      | some v => { st with readings := updateReading st.readings (pyUpper (pyStrip p1)) v }
      | none => st
    | _ => st
  else st

/-- Timeout handling, `run_master` lines 213-219: if more than 15 seconds
have passed since `last_ping_time` and there are pending readings, the cycle
is cleared (and `last_ping_time` is reset). -/
def checkTimeout (st : MasterState) (now : ℚ) : MasterState :=
  if 15 < now - st.lastPing ∧ 0 < st.readings.length then
    { readings := [], lastPing := now, deviceId := none, sos := false }
  else st

/-- Modelled from the spec: `is_complete()` — the ReadingSet contains an
entry for every one of the three configured anchor ids. -/
def specComplete (m : List (Str × Int)) : Bool :=
  anchorIds.all fun a => (lookupReading m a).isSome

/-- Whether the loop body of `run_master` invokes `MathEngine.trilaterate`
for the reading set `m`: the branch guard is `len(current_readings) >= 3`,
and inside it `tri_input` gets one entry per configured anchor id present in
`current_readings`, with the call guarded by `len(tri_input) >= 3`. -/
def trilaterationInvoked (m : List (Str × Int)) : Bool :=
  decide (3 ≤ m.length) &&
    decide (3 ≤ (anchorIds.filter fun a => (lookupReading m a).isSome).length)

/-- Python `int()` applied to a float: truncation toward zero. -/
def pyTrunc (q : ℚ) : Int := if q < 0 then ⌈q⌉ else ⌊q⌋

/-- Modelled from the spec: the arithmetic mean of the raw RSSI values,
rounded to the nearest integer. -/
def specAvgRssi (l : List Int) : Int := round ((l.sum : ℚ) / (l.length : ℚ))

/-- The output of one successful cycle: the arguments of
`backend.send_location` in `run_master` lines 190-196. -/
structure PositionFix where
  x : ℝ
  y : ℝ
  deviceId : Str
  sos : Bool
  rssiAvg : Int

/-- The `(anchor_id, rssi)` pairs collected by the
`for anchor_id in ["MASTER", "ANCHOR_2", "ANCHOR_3"]` loop of `run_master`
(lines 167-177): one entry per configured anchor id present in
`current_readings`, in the fixed canonical order. -/
def presentReadings (m : List (Str × Int)) : List (Str × Int) :=
  anchorIds.filterMap fun a => (lookupReading m a).map fun r => (a, r)

/-- The `tri_input` list of the same loop: the configured position and the
`rssi_to_distance` estimate for each collected pair. -/
noncomputable def triInputOf (anchors : Str → ℚ × ℚ) (pres : List (Str × Int)) :
    List (ℝ × ℝ × ℝ) :=
  pres.map fun p => (((anchors p.1).1 : ℝ), ((anchors p.1).2 : ℝ), rssi_to_distance p.2)

/-- `rssi_avg = int(sum(rssi_values) / len(rssi_values))` in `run_master`
line 189 (float division, then truncation toward zero by `int()`). -/
def codeAvgRssi (l : List Int) : Int := pyTrunc ((l.sum : ℚ) / (l.length : ℚ))

/-- The cycle reset of `run_master` lines 207-210 (`last_ping_time` is not
touched there). -/
def resetState (st : MasterState) : MasterState :=
  { readings := [], lastPing := st.lastPing, deviceId := none, sos := false }

/-- The `PositionFix` (if any) produced inside the `len(current_readings) >= 3`
branch of `run_master`: `trilaterate` is invoked when the collected
`tri_input` has at least three entries, and on success — and if
`current_device_id` is truthy (non-`None` and nonempty) — the position is
delivered together with `is_sos` and the truncated average of the raw rssi
values. -/
noncomputable def emitFix (anchors : Str → ℚ × ℚ) (st : MasterState) : Option PositionFix :=
  if 3 ≤ (presentReadings st.readings).length then
    letI : DecidableEq ℝ := Classical.decEq ℝ
    match trilaterate (triInputOf anchors (presentReadings st.readings)) with
    | some xy =>
      match st.deviceId with
      | some d =>
        if d = [] then none
        else
          some { x := xy.1, y := xy.2, deviceId := d, sos := st.sos,
                 rssiAvg := codeAvgRssi ((presentReadings st.readings).map Prod.snd) }
      | none => none
    | none => none
  else none

/-- The positioning block of `run_master` (lines 158-211): when
`len(current_readings) >= 3` it computes `emitFix` and then resets the cycle
state whether or not trilateration succeeded; otherwise nothing happens. -/
noncomputable def positionStep (anchors : Str → ℚ × ℚ) (st : MasterState) :
    Option PositionFix × MasterState :=
  if 3 ≤ st.readings.length then (emitFix anchors st, resetState st)
  else (none, st)

/-! ### Helper lemmas -/

theorem roundTo2_eq {K : Type} [LinearOrderedField K] [FloorRing K] (x : K) (z : ℤ)
    (h1 : (z : K) ≤ 100 * x + 1 / 2) (h2 : 100 * x + 1 / 2 < (z : K) + 1) :
    roundTo2 x = (z : K) / 100 := by
  unfold roundTo2
  rw [round_eq, Int.floor_eq_iff.mpr ⟨h1, by exact_mod_cast h2⟩]

theorem roundTo2_mono {K : Type} [LinearOrderedField K] [FloorRing K] {x y : K}
    (h : x ≤ y) : roundTo2 x ≤ roundTo2 y := by
  unfold roundTo2
  have hr : round (100 * x) ≤ round (100 * y) := by
    rw [round_eq, round_eq]
    exact Int.floor_mono (by linarith)
  have : ((round (100 * x) : ℤ) : K) ≤ ((round (100 * y) : ℤ) : K) := by exact_mod_cast hr
  linarith

theorem roundTo2_nonneg {K : Type} [LinearOrderedField K] [FloorRing K] {x : K}
    (h : 0 ≤ x) : 0 ≤ roundTo2 x := by
  unfold roundTo2
  have hr : (0 : ℤ) ≤ round (100 * x) := by
    rw [round_eq]
    exact Int.le_floor.mpr (by push_cast; linarith)
  have : ((0 : ℤ) : K) ≤ ((round (100 * x) : ℤ) : K) := by exact_mod_cast hr
  have h100 : (0 : K) < 100 := by norm_num
  positivity

theorem lookup_updateReading_self (m : List (Str × Int)) (k : Str) (v : Int) :
    lookupReading (updateReading m k v) k = some v := by
  induction m with
  | nil => simp [updateReading, lookupReading]
  | cons p rest ih =>
    by_cases hp : p.1 = k
    · simp [updateReading, lookupReading, hp]
    · simpa [updateReading, lookupReading, hp] using ih

theorem lookup_updateReading_other (m : List (Str × Int)) (k q : Str) (v : Int)
    (hq : q ≠ k) : lookupReading (updateReading m k v) q = lookupReading m q := by
  have hkq : ¬k = q := fun h => hq h.symm
  induction m with
  | nil => simp [updateReading, lookupReading, hkq]
  | cons p rest ih =>
    by_cases hp : p.1 = k
    · have hpq : ¬p.1 = q := by rw [hp]; exact hkq
      simp [updateReading, lookupReading, hp, hpq, hkq]
    · by_cases hpq : p.1 = q
      · simp only [updateReading]
        rw [if_neg hp]
        simp [lookupReading, hpq]
      · simpa [updateReading, lookupReading, hp, hpq] using ih

theorem mem_keys_updateReading (m : List (Str × Int)) (k q : Str) (v : Int)
    (h : q ∈ (updateReading m k v).map Prod.fst) : q = k ∨ q ∈ m.map Prod.fst := by
  induction m with
  | nil => simpa [updateReading] using h
  | cons p rest ih =>
    by_cases hp : p.1 = k
    · simp only [updateReading, hp, if_true, List.map_cons, List.mem_cons] at h
      rcases h with h | h
      · exact Or.inl h
      · exact Or.inr (by simp [h])
    · simp only [updateReading, hp, if_false, List.map_cons, List.mem_cons] at h
      rcases h with h | h
      · exact Or.inr (by simp [h])
      · rcases ih h with h1 | h1
        · exact Or.inl h1
        · exact Or.inr (by simp [h1])

theorem nodupKeys_updateReading (m : List (Str × Int)) (k : Str) (v : Int)
    (h : NodupKeys m) : NodupKeys (updateReading m k v) := by
  induction m with
  | nil => simp [NodupKeys, updateReading]
  | cons p rest ih =>
    have hnd := h
    simp only [NodupKeys, List.map_cons, List.nodup_cons] at hnd
    by_cases hp : p.1 = k
    · simp only [NodupKeys, updateReading, hp, if_true, List.map_cons, List.nodup_cons]
      exact ⟨by rw [← hp]; exact hnd.1, hnd.2⟩
    · have ih2 := ih hnd.2
      simp only [NodupKeys, updateReading, hp, if_false, List.map_cons, List.nodup_cons]
      refine ⟨fun hmem => ?_, ih2⟩
      rcases mem_keys_updateReading rest k p.1 v hmem with h1 | h1
      · exact hp h1
      · exact hnd.1 h1

theorem mem_keys_of_lookup_isSome (m : List (Str × Int)) (k : Str)
    (h : (lookupReading m k).isSome = true) : k ∈ m.map Prod.fst := by
  induction m with
  | nil => simp [lookupReading] at h
  | cons p rest ih =>
    by_cases hp : p.1 = k
    · simp [hp]
    · simp only [lookupReading, hp, if_false] at h
      simp [ih h]

theorem three_le_length_of_complete (m : List (Str × Int))
    (h1 : (lookupReading m masterKey).isSome = true)
    (h2 : (lookupReading m anchor2Key).isSome = true)
    (h3 : (lookupReading m anchor3Key).isSome = true) : 3 ≤ m.length := by
  have hsub : anchorIds ⊆ m.map Prod.fst := by
    intro a ha
    simp only [anchorIds, List.mem_cons, List.not_mem_nil, or_false] at ha
    rcases ha with rfl | rfl | rfl
    · exact mem_keys_of_lookup_isSome m masterKey h1
    · exact mem_keys_of_lookup_isSome m anchor2Key h2
    · exact mem_keys_of_lookup_isSome m anchor3Key h3
  have hnd3 : anchorIds.Nodup := by decide
  have := (hnd3.subperm hsub).length_le
  simpa [anchorIds] using this

/-! ### Concrete test data used by the claims -/

/-- A non-configured anchor id (as could be introduced by a stray
`"REPORT:ANCHOR_4:..."` message). -/
def anchor4KeyS : String := "ANCHOR_4"

/-- The non-configured anchor id, as a character list. -/
def anchor4Key : Str := anchor4KeyS.toList

/-- A reading set with three entries of which one is under a non-configured
anchor id. -/
def foreignSet : List (Str × Int) := [(masterKey, -60), (anchor2Key, -70), (anchor4Key, -80)]

/-- A well-formed relayed report. -/
def msgRep70S : String := "REPORT:ANCHOR_2:-70"

/-- A well-formed relayed report, as a character list. -/
def msgRep70 : Str := msgRep70S.toList

/-- A later well-formed relayed report from the same anchor. -/
def msgRep55S : String := "REPORT:ANCHOR_2:-55"

/-- The later relayed report, as a character list. -/
def msgRep55 : Str := msgRep55S.toList

/-- A malformed relayed report with the rssi field missing. -/
def msgRepMissingS : String := "REPORT:ANCHOR_2"

/-- The missing-rssi report, as a character list. -/
def msgRepMissing : Str := msgRepMissingS.toList

/-- A malformed relayed report with a non-integer rssi field. -/
def msgRepBadS : String := "REPORT:ANCHOR_2:notanumber"

/-- The non-integer-rssi report, as a character list. -/
def msgRepBad : Str := msgRepBadS.toList

/-- A relayed report with an extra fourth field. -/
def msgRepExtraS : String := "REPORT:ANCHOR_2:-70:EXTRA"

/-- The extra-field report, as a character list. -/
def msgRepExtra : Str := msgRepExtraS.toList

/-- A direct ping whose device id contains the substring `"SOS"`. -/
def msgPingSosimoS : String := "PING:SOSIMO"

/-- The ping with `"SOS"` in its device id, as a character list. -/
def msgPingSosimo : Str := msgPingSosimoS.toList

/-- The device id `"SOSIMO"`, as a character list. -/
def sosimoS : String := "SOSIMO"

/-- The device id `"SOSIMO"` as a character list. -/
def sosimo : Str := sosimoS.toList

/-- A device id for test states. -/
def devT1S : String := "T1"

/-- The test device id, as a character list. -/
def devT1 : Str := devT1S.toList

/-- The empty cycle state at time zero. -/
def stEmpty : MasterState := ⟨[], 0, none, false⟩

/-- A cycle holding only the master's own reading, with last activity at
time zero. -/
def stOneMaster : MasterState := ⟨[(masterKey, -60)], 0, some devT1, false⟩

/-! ### Claims -/

/-- C1: a positioning computation (an invocation of
`MathEngine.trilaterate`) is triggered exactly when the reading set contains
an entry for each of the three configured anchor ids; in particular a
reading set with three entries of which one is under a non-configured anchor
id is not complete and does not trigger a computation. -/
theorem trilateration_triggered_iff_complete :
    (∀ m : List (Str × Int), trilaterationInvoked m = specComplete m) ∧
      foreignSet.length = 3 ∧
      specComplete foreignSet = false ∧
      trilaterationInvoked foreignSet = false := by
  refine ⟨fun m => ?_, by decide, by decide, by decide⟩
  cases h1 : (lookupReading m masterKey).isSome <;>
    cases h2 : (lookupReading m anchor2Key).isSome <;>
      cases h3 : (lookupReading m anchor3Key).isSome <;>
        simp [trilaterationInvoked, specComplete, anchorIds, h1, h2, h3, List.filter]
  exact three_le_length_of_complete m h1 h2 h3

/-- C9: on three non-collinear anchors with exact distances — anchors at
`(0,0)`, `(100,0)`, `(50, 86.6)` with radii `57.3`, `57.3`, `58.6` —
`trilaterate` returns a point near `(50.0, 28.0)` (here: exactly `(50, 28)`
after the 2-decimal rounding). -/
theorem trilaterate_exact_example :
    trilaterate [((0 : ℚ), (0 : ℚ), (573 / 10 : ℚ)), ((100 : ℚ), (0 : ℚ), (573 / 10 : ℚ)),
        ((50 : ℚ), (433 / 5 : ℚ), (293 / 5 : ℚ))] = some (50, 28) := by
  rw [trilaterate_cons, if_neg (by norm_num [triDenom])]
  rw [roundTo2_eq _ 5000 (by norm_num [triDenom]) (by norm_num [triDenom])]
  rw [roundTo2_eq _ 2800 (by norm_num [triDenom]) (by norm_num [triDenom])]
  norm_num

/-- C2 (counterexample): an input whose denominator is nonzero but far
smaller than any reasonable epsilon (here `4 * 10^-12 < 10^-9`) still
produces a position — `trilaterate` has no epsilon guard. -/
theorem trilaterate_small_denominator_cex :
    triDenom ((0 : ℚ), (0 : ℚ), (1 : ℚ)) ((1 : ℚ), (0 : ℚ), (1 : ℚ))
        ((2 : ℚ), (1 / 1000000000000 : ℚ), (1 : ℚ)) = 1 / 250000000000 ∧
      |triDenom ((0 : ℚ), (0 : ℚ), (1 : ℚ)) ((1 : ℚ), (0 : ℚ), (1 : ℚ))
          ((2 : ℚ), (1 / 1000000000000 : ℚ), (1 : ℚ))| < 1 / 1000000000 ∧
      trilaterate [((0 : ℚ), (0 : ℚ), (1 : ℚ)), ((1 : ℚ), (0 : ℚ), (1 : ℚ)),
          ((2 : ℚ), (1 / 1000000000000 : ℚ), (1 : ℚ))] ≠ none := by
  refine ⟨by norm_num [triDenom], ?_, ?_⟩
  · rw [show triDenom ((0 : ℚ), (0 : ℚ), (1 : ℚ)) ((1 : ℚ), (0 : ℚ), (1 : ℚ))
          ((2 : ℚ), (1 / 1000000000000 : ℚ), (1 : ℚ)) = 1 / 250000000000 from by
        norm_num [triDenom]]
    rw [abs_of_pos (by norm_num)]
    norm_num
  · rw [trilaterate_cons, if_neg (by norm_num [triDenom])]
    simp

/-- C2 (amended): `trilaterate` returns no solution exactly when the
denominator `E*A - B*D` is exactly zero — there is no epsilon tolerance —
and exactly collinear anchor positions make that denominator zero, for any
radii. -/
theorem trilaterate_none_iff_denominator_zero :
    (∀ (p1 p2 p3 : ℚ × ℚ × ℚ) (rest : List (ℚ × ℚ × ℚ)),
        trilaterate (p1 :: p2 :: p3 :: rest) = none ↔ triDenom p1 p2 p3 = 0) ∧
      (∀ x1 y1 r1 x2 y2 r2 x3 y3 r3 : ℚ,
          (x2 - x1) * (y3 - y1) - (x3 - x1) * (y2 - y1) = 0 →
          trilaterate [(x1, y1, r1), (x2, y2, r2), (x3, y3, r3)] = none) := by
  have key : ∀ (p1 p2 p3 : ℚ × ℚ × ℚ) (rest : List (ℚ × ℚ × ℚ)),
      trilaterate (p1 :: p2 :: p3 :: rest) = none ↔ triDenom p1 p2 p3 = 0 := by
    intro p1 p2 p3 rest
    rw [trilaterate_cons]
    by_cases h : triDenom p1 p2 p3 = 0
    · simp [h]
    · simp [h]
  refine ⟨key, fun x1 y1 r1 x2 y2 r2 x3 y3 r3 hcol => ?_⟩
  rw [key]
  show (-2 * y2 + 2 * y3) * (-2 * x1 + 2 * x2) - (-2 * y1 + 2 * y2) * (-2 * x2 + 2 * x3) = 0
  linear_combination (4 : ℚ) * hcol

/-- C2 (witness): the claim's own example — exactly collinear anchors at
`(0,0)`, `(50,0)`, `(100,0)` with arbitrary radii — yields no solution. -/
theorem trilaterate_collinear_witness :
    ((50 : ℚ) - 0) * (0 - 0) - ((100 : ℚ) - 0) * (0 - 0) = 0 ∧
      trilaterate [((0 : ℚ), (0 : ℚ), (10 : ℚ)), ((50 : ℚ), (0 : ℚ), (20 : ℚ)),
          ((100 : ℚ), (0 : ℚ), (30 : ℚ))] = none :=
  ⟨by norm_num,
    trilaterate_none_iff_denominator_zero.2 0 0 10 50 0 20 100 0 30 (by norm_num)⟩

set_option exponentiation.threshold 200000 in
/-- C4: the distance estimate is non-negative for every input, but the
claim's "never raises an error, even for arbitrarily large negative rssi"
fails: CPython's `10 ** exponent` overflows the double range and raises
`OverflowError` once the exponent `(-40 - rssi)/40` passes about `308.25` —
first at `rssi = -12371`, and in particular at `rssi = -100000`. -/
theorem rssi_to_distance_overflow_bug :
    rssiOverflow (-100000) = true ∧ rssiOverflow (-12371) = true ∧
      rssiOverflow (-12370) = false ∧ rssiOverflow (-60) = false ∧
      ∀ r : Int, 0 ≤ rssi_to_distance r := by
  refine ⟨by decide, by decide, by decide, by decide, fun r => ?_⟩
  unfold rssi_to_distance
  exact roundTo2_nonneg (le_of_lt (Real.rpow_pos_of_pos (by norm_num) _))

/-- C8: the distance estimate is monotonically non-increasing in rssi — a
weaker (more negative) signal yields a larger or equal distance. -/
theorem rssi_to_distance_antitone (r1 r2 : Int) (h12 : r1 ≤ r2) (h2 : r2 ≤ -10) :
    rssi_to_distance r2 ≤ rssi_to_distance r1 := by
  unfold rssi_to_distance
  apply roundTo2_mono
  have hc : clampRssi r1 ≤ clampRssi r2 := by
    unfold clampRssi
    split <;> split <;> omega
  have hexp : distExponent r2 ≤ distExponent r1 := by
    unfold distExponent
    have hcq : ((clampRssi r1 : ℚ)) ≤ ((clampRssi r2 : ℚ)) := by exact_mod_cast hc
    rw [div_le_div_iff₀ (by norm_num [ENV_FACTOR_N]) (by norm_num [ENV_FACTOR_N])]
    have hEN : ENV_FACTOR_N = 4 := rfl
    rw [hEN]
    linarith
  have hexpR : ((distExponent r2 : ℚ) : ℝ) ≤ ((distExponent r1 : ℚ) : ℝ) := by
    exact_mod_cast hexp
  exact (Real.rpow_le_rpow_left_iff (by norm_num)).mpr hexpR

/-- C8 (witness): instantiation at `r1 = -60 ≤ r2 = -50 ≤ -10`. -/
theorem rssi_to_distance_antitone_witness :
    ((-60 : Int) ≤ -50 ∧ (-50 : Int) ≤ -10) ∧
      rssi_to_distance (-50) ≤ rssi_to_distance (-60) :=
  ⟨⟨by decide, by decide⟩, rssi_to_distance_antitone (-60) (-50) (by decide) (by decide)⟩

/-- C3 (counterexample): a successful REPORT ingest does not reset the
last-activity timestamp.  Starting from a cycle whose last direct ping was
at time 0, ingesting `"REPORT:ANCHOR_2:-70"` at time 20 succeeds (the
reading is recorded) yet `last_ping_time` stays 0, so the immediately
following timeout check at time 20 wipes the just-refreshed data — contrary
to the claim that elapsed time is measured from the last successful
ingest. -/
theorem report_ingest_no_timestamp_reset_cex :
    lookupReading (ingest stOneMaster msgRep70 (-50) 20).readings anchor2Key = some (-70) ∧
      (ingest stOneMaster msgRep70 (-50) 20).lastPing = 0 ∧
      (checkTimeout (ingest stOneMaster msgRep70 (-50) 20) 20).readings = [] := by
  refine ⟨by decide, by decide, ?_⟩
  have hst : ingest stOneMaster msgRep70 (-50) 20 =
      ⟨[(masterKey, -60), (anchor2Key, -70)], 0, some devT1, false⟩ := by decide
  rw [hst]
  unfold checkTimeout
  rw [if_pos (by constructor <;> norm_num)]

/-- C3 (amended): only a direct PING/SOS ingest resets the cycle's
last-activity timestamp (`last_ping_time`); every other message — including
a successful relayed REPORT ingest — leaves the timestamp unchanged, so the
timeout is measured from the last direct signal, not from the last
ingest. -/
theorem ingest_lastPing_reset_iff_direct (st : MasterState) (msg : Str) (rssi : Int) (now : ℚ) :
    ((strContains msg pingKw || strContains msg sosKw) = true →
        (ingest st msg rssi now).lastPing = now) ∧
      ((strContains msg pingKw || strContains msg sosKw) = false →
        (ingest st msg rssi now).lastPing = st.lastPing) := by
  constructor <;> intro h
  · rw [ingest, if_pos h]
    rcases hsp : splitOnChar ':' msg with _ | ⟨a, _ | ⟨b, t⟩⟩ <;> simp
  · rw [ingest, if_neg (by simp [h])]
    by_cases hr : strContains msg reportKw = true
    · rw [if_pos hr]
      rcases hsp : splitOnChar ':' msg with _ | ⟨a, _ | ⟨b, _ | ⟨c, t⟩⟩⟩ <;> simp
      rcases hpi : pyParseInt c with _ | v <;> simp
    · rw [if_neg (by simp [hr])]

/-- C3 (amended, witness): a direct ping at time 7 resets the timestamp to
7; a relayed report at time 20 leaves it at the state's previous value 0. -/
theorem ingest_lastPing_reset_witness :
    (strContains msgPingSosimo pingKw || strContains msgPingSosimo sosKw) = true ∧
      (strContains msgRep70 pingKw || strContains msgRep70 sosKw) = false ∧
      (ingest stEmpty msgPingSosimo (-60) 7).lastPing = 7 ∧
      (ingest stOneMaster msgRep70 (-50) 20).lastPing = 0 :=
  ⟨by decide, by decide,
    (ingest_lastPing_reset_iff_direct stEmpty msgPingSosimo (-60) 7).1 (by decide),
    (ingest_lastPing_reset_iff_direct stOneMaster msgRep70 (-50) 20).2 (by decide)⟩

/-- C5 (counterexample): a REPORT payload with an extra fourth field is not
dropped: ingesting `"REPORT:ANCHOR_2:-70:EXTRA"` mutates the reading set
(the first two fields after `REPORT` are used, the rest ignored) — contrary
to the claim that any wrong field count leaves the state unchanged. -/
theorem report_extra_fields_cex :
    ingest stEmpty msgRepExtra (-50) 5 ≠ stEmpty ∧
      (ingest stEmpty msgRepExtra (-50) 5).readings = [(anchor2Key, -70)] := by
  constructor <;> decide

/-- C5 (amended): a REPORT payload with a missing rssi field or a
non-integer rssi field leaves the state completely unchanged (the raised
`IndexError`/`ValueError` is swallowed, non-fatally); a payload with extra
fields beyond the third is not dropped — its named anchor and rssi are
ingested normally and the extra fields are ignored. -/
theorem ingest_malformed_report (st : MasterState) (rssi : Int) (now : ℚ) :
    ingest st msgRepMissing rssi now = st ∧
      ingest st msgRepBad rssi now = st ∧
      (ingest st msgRepExtra rssi now).readings =
        updateReading st.readings anchor2Key (-70) ∧
      (ingest st msgRepExtra rssi now).lastPing = st.lastPing :=
  ⟨rfl, rfl, rfl, rfl⟩

/-- C10: message classification is by substring containment: any message
containing `"PING"` or `"SOS"` anywhere is handled as a direct locate signal
(this branch precedes and therefore takes precedence over REPORT handling),
recording the received rssi under the master's own id, resetting the
timestamp, and setting the cycle's SOS flag to exactly "the message contains
the substring SOS somewhere". -/
theorem ingest_substring_classification (st : MasterState) (msg : Str) (rssi : Int) (now : ℚ)
    (h : (strContains msg pingKw || strContains msg sosKw) = true) :
    (ingest st msg rssi now).sos = strContains msg sosKw ∧
      lookupReading (ingest st msg rssi now).readings masterKey = some rssi ∧
      (ingest st msg rssi now).lastPing = now := by
  rw [ingest, if_pos h]
  rcases hsp : splitOnChar ':' msg with _ | ⟨a, _ | ⟨b, t⟩⟩ <;>
    simp [lookup_updateReading_self]

/-- C10 (witness): `"PING:SOSIMO"` — a PING whose device id merely contains
`"SOS"` — is recorded with the SOS flag asserted (and its device id is still
captured as `"SOSIMO"`). -/
theorem ingest_sosimo_witness :
    (strContains msgPingSosimo pingKw || strContains msgPingSosimo sosKw) = true ∧
      (ingest stEmpty msgPingSosimo (-60) 3).sos = true ∧
      (ingest stEmpty msgPingSosimo (-60) 3).deviceId = some sosimo :=
  ⟨by decide,
    ((ingest_substring_classification stEmpty msgPingSosimo (-60) 3 (by decide)).1).trans
      (by decide),
    by decide⟩

/-- C6: the reading set keeps at most one entry per anchor id — every
ingest preserves key-uniqueness — and a later reading from the same anchor
overwrites the earlier one (last-writer-wins) while leaving every other
anchor's entry untouched; in particular two successive REPORTs from
`ANCHOR_2` leave its entry at the second value. -/
theorem readingSet_last_writer_wins :
    (∀ (st : MasterState) (msg : Str) (rssi : Int) (now : ℚ),
        NodupKeys st.readings → NodupKeys (ingest st msg rssi now).readings) ∧
      (∀ (m : List (Str × Int)) (k : Str) (v : Int),
          lookupReading (updateReading m k v) k = some v) ∧
      (∀ (m : List (Str × Int)) (k q : Str) (v : Int),
          q ≠ k → lookupReading (updateReading m k v) q = lookupReading m q) ∧
      (∀ (st : MasterState) (rssi : Int) (now1 now2 : ℚ),
          lookupReading
            (ingest (ingest st msgRep70 rssi now1) msgRep55 rssi now2).readings
            anchor2Key = some (-55)) := by
  refine ⟨?_, lookup_updateReading_self,
    fun m k q v h => lookup_updateReading_other m k q v h, ?_⟩
  · intro st msg rssi now h
    by_cases h1 : (strContains msg pingKw || strContains msg sosKw) = true
    · rw [ingest, if_pos h1]
      rcases hsp : splitOnChar ':' msg with _ | ⟨a, _ | ⟨b, t⟩⟩ <;>
        exact nodupKeys_updateReading st.readings masterKey rssi h
    · rw [ingest, if_neg h1]
      by_cases hr : strContains msg reportKw = true
      · rw [if_pos hr]
        split
        · split
          · exact nodupKeys_updateReading _ _ _ h
          · exact h
        · exact h
      · rw [if_neg hr]
        exact h
  · intro st rssi now1 now2
    show lookupReading
        (updateReading (updateReading st.readings anchor2Key (-70)) anchor2Key (-55))
        anchor2Key = some (-55)
    exact lookup_updateReading_self _ _ _

/-- C6 (witness): instantiation — ingesting a report into a one-entry set
keeps keys unique, and updating a fresh key leaves the master's entry
unchanged. -/
theorem readingSet_last_writer_wins_witness :
    NodupKeys (ingest stOneMaster msgRep70 (-50) 5).readings ∧
      lookupReading (updateReading [(masterKey, -60)] anchor2Key (-70)) masterKey =
        some (-60) :=
  ⟨readingSet_last_writer_wins.1 stOneMaster msgRep70 (-50) 5 (by decide),
    (readingSet_last_writer_wins.2.2.1 [(masterKey, -60)] anchor2Key masterKey (-70)
        (by decide)).trans (by decide)⟩

/-- The anchor-position table used by the positioning tests: `MASTER` at
`(0,0)`, `ANCHOR_2` at `(100,0)`, `ANCHOR_3` at `(50, 86.6)`. -/
def anchorsCfg : Str → ℚ × ℚ := fun a =>
  if a = masterKey then (0, 0)
  else if a = anchor2Key then (100, 0)
  else if a = anchor3Key then (50, 433 / 5)
  else (0, 0)

/-- A complete cycle whose rssi values average to `-182/3 ≈ -60.67`. -/
def stTrunc : MasterState :=
  ⟨[(masterKey, -60), (anchor2Key, -60), (anchor3Key, -62)], 0, some devT1, false⟩

/-- A complete cycle with rssi values `-60`, `-70`, `-80`. -/
def stWit : MasterState :=
  ⟨[(masterKey, -60), (anchor2Key, -70), (anchor3Key, -80)], 0, some devT1, false⟩

/-- C7 (counterexample): for raw readings `-60, -60, -62` the emitted fix
carries `rssi_avg = -60` (`int()` truncation toward zero of `-60.67`),
while the claimed round-to-nearest mean is `-61`. -/
theorem rssi_avg_truncation_cex :
    ((positionStep anchorsCfg stTrunc).1).map PositionFix.rssiAvg = some (-60) ∧
      specAvgRssi [-60, -60, -62] = -61 := by
  have havg : codeAvgRssi [-60, -60, -62] = -60 := by
    unfold codeAvgRssi pyTrunc
    rw [show (([(-60 : Int), -60, -62].sum : Int) : ℚ) /
          (([(-60 : Int), -60, -62].length : ℕ) : ℚ) = -182 / 3 from by
        push_cast [List.sum_cons, List.sum_nil]
        norm_num]
    rw [if_pos (by norm_num)]
    rw [Int.ceil_eq_iff]
    constructor <;> push_cast <;> norm_num
  constructor
  · unfold positionStep
    rw [if_pos (by decide : 3 ≤ stTrunc.readings.length)]
    show (emitFix anchorsCfg stTrunc).map PositionFix.rssiAvg = some (-60)
    unfold emitFix
    rw [if_pos (by decide : 3 ≤ (presentReadings stTrunc.readings).length)]
    have hpres : presentReadings stTrunc.readings =
        [(masterKey, -60), (anchor2Key, -60), (anchor3Key, -62)] := by decide
    rw [hpres]
    have e1 : anchorsCfg masterKey = (0, 0) := by decide
    have e2 : anchorsCfg anchor2Key = (100, 0) := by decide
    have e3 : anchorsCfg anchor3Key = (50, 433 / 5) := by
      unfold anchorsCfg
      rw [if_neg (by decide), if_neg (by decide), if_pos rfl]
    have htri : triInputOf anchorsCfg [(masterKey, -60), (anchor2Key, -60), (anchor3Key, -62)] =
        [(((0 : ℚ) : ℝ), ((0 : ℚ) : ℝ), rssi_to_distance (-60)),
         (((100 : ℚ) : ℝ), ((0 : ℚ) : ℝ), rssi_to_distance (-60)),
         (((50 : ℚ) : ℝ), ((433 / 5 : ℚ) : ℝ), rssi_to_distance (-62))] := by
      simp [triInputOf, e1, e2, e3]
    rw [htri, trilaterate_cons,
      if_neg (by simp only [triDenom]; push_cast; norm_num)]
    show (some (codeAvgRssi
        ([(masterKey, -60), (anchor2Key, -60), (anchor3Key, -62)].map Prod.snd)) :
        Option Int) = some (-60)
    rw [show [(masterKey, (-60 : Int)), (anchor2Key, -60), (anchor3Key, -62)].map Prod.snd =
        [-60, -60, -62] from by decide]
    rw [havg]
  · unfold specAvgRssi
    rw [show (([(-60 : Int), -60, -62].sum : Int) : ℚ) /
          (([(-60 : Int), -60, -62].length : ℕ) : ℚ) = -182 / 3 from by
        push_cast [List.sum_cons, List.sum_nil]
        norm_num]
    rw [round_eq]
    rw [Int.floor_eq_iff]
    constructor <;> push_cast <;> norm_num

/-- C7 (amended): whenever a completed cycle emits a `PositionFix` for
readings `r1, r2, r3`, its `rssi_avg` equals the arithmetic mean of the
three raw rssi values truncated toward zero (Python `int()` of the float
quotient), not rounded to the nearest integer. -/
theorem positionFix_rssiAvg_truncated_mean (anchors : Str → ℚ × ℚ) (st : MasterState)
    (r1 r2 r3 : Int)
    (h1 : lookupReading st.readings masterKey = some r1)
    (h2 : lookupReading st.readings anchor2Key = some r2)
    (h3 : lookupReading st.readings anchor3Key = some r3) :
    ∀ fix ∈ (positionStep anchors st).1,
      fix.rssiAvg = pyTrunc (((r1 + r2 + r3 : Int) : ℚ) / 3) := by
  intro fix hfix
  have hpres : presentReadings st.readings =
      [(masterKey, r1), (anchor2Key, r2), (anchor3Key, r3)] := by
    simp [presentReadings, anchorIds, h1, h2, h3]
  unfold positionStep at hfix
  by_cases hlen : 3 ≤ st.readings.length
  · rw [if_pos hlen] at hfix
    have hfix2 : fix ∈ emitFix anchors st := hfix
    rw [emitFix, hpres] at hfix2
    rw [if_pos (by simp)] at hfix2
    split at hfix2
    · split at hfix2
      · split at hfix2
        · simp at hfix2
        · simp only [Option.mem_def, Option.some.injEq] at hfix2
          rw [← hfix2]
          show codeAvgRssi
              ([(masterKey, r1), (anchor2Key, r2), (anchor3Key, r3)].map Prod.snd) = _
          unfold codeAvgRssi
          congr 1
          simp only [List.map_cons, List.map_nil, List.sum_cons, List.sum_nil,
            List.length_cons, List.length_nil]
          push_cast
          ring
      · simp at hfix2
    · simp at hfix2
  · rw [if_neg hlen] at hfix
    simp at hfix

/-- C7 (amended, witness): instantiation at the complete cycle with raw
readings `-60, -70, -80`. -/
theorem positionFix_rssiAvg_witness :
    (lookupReading stWit.readings masterKey = some (-60) ∧
        lookupReading stWit.readings anchor2Key = some (-70) ∧
        lookupReading stWit.readings anchor3Key = some (-80)) ∧
      ∀ fix ∈ (positionStep anchorsCfg stWit).1,
        fix.rssiAvg = pyTrunc ((((-60) + (-70) + (-80) : Int) : ℚ) / 3) :=
  ⟨⟨by decide, by decide, by decide⟩,
    positionFix_rssiAvg_truncated_mean anchorsCfg stWit (-60) (-70) (-80)
      (by decide) (by decide) (by decide)⟩

end TouristSafety
